import Mathlib

/-
Verification of the path grammar and path-node operations of the
s3-connector-for-pytorch `S3Path` component (s3path.py).

Python strings are embedded as lists of characters (`Str`).  The parser
functions (`S3Parser.join`, `S3Parser.split`, `S3Parser.splitdrive`,
`S3Parser.isabs`) are translated from the source, including the relevant
behaviour of `urllib.parse.urlparse` and `posixpath.join` that they call.
The storage client is an oracle (a record of functions), since the real
client lives in a separate package; its contract follows the specification
of the collaborator.  Exceptions are embedded as an inductive `PyErr`, and
fallible operations return `Except PyErr`.
-/

/-- A Python string, embedded as a list of characters. -/
abbrev Str := List Char

/-- Models `str.split(t, 1)` support: the part of `s` before the first occurrence of
character `t`, and (when `t` occurs) the part after it. -/
def splitFirstAt (t : Char) : Str → Str × Option Str
  | [] => ([], none)
  | c :: cs =>
      if c == t then ([], some cs)
      else
        let r := splitFirstAt t cs
        (c :: r.1, r.2)

/-- Models `str.rpartition("/")` support: split at the last slash.  Returns
`(before_last_slash, after_last_slash)`; when no slash occurs, returns
`("", s)`, matching Python's `("", "", s)`. -/
def rpartitionSlash (s : Str) : Str × Str :=
  let afterRev := s.reverse.takeWhile (fun c => !(c == '/'))
  let restRev := s.reverse.dropWhile (fun c => !(c == '/'))
  match restRev with
  | [] => ([], s)
  | _ :: beforeRev => (beforeRev.reverse, afterRev.reverse)

/-- Models `str.split("/")`: split into segments at every slash, keeping empty
segments, as Python does. -/
def splitOnSlash : Str → List Str
  | [] => [[]]
  | c :: t =>
      let r := splitOnSlash t
      if c == '/' then [] :: r
      else
        match r with
        | h :: rt => (c :: h) :: rt
        | [] => [[c]]

/-- Python's `sub in s` substring test. -/
def containsSub (pat : Str) : Str → Bool
  | [] => pat.isEmpty
  | c :: t => pat.isPrefixOf (c :: t) || containsSub pat t

/-- Models `posixpath.join(a, *p)`: fold each extra segment onto the path; a segment
starting with the separator replaces the path, otherwise it is appended with
a separator inserted unless the path is empty or already ends with one. -/
def posixJoin (a : Str) (ps : List Str) : Str :=
  ps.foldl
    (fun path b =>
      match b with
      | '/' :: _ => b
      | _ =>
          if path.isEmpty || path.getLast? == some '/' then path ++ b
          else path ++ '/' :: b)
    a

/-- Models `urllib.parse._splitparams`: drop a `;params` suffix from the last
segment of the path. -/
def splitParams (path : Str) : Str :=
  if path.contains '/' then
    let pr := rpartitionSlash path
    pr.1 ++ '/' :: pr.2.takeWhile (fun c => !(c == ';'))
  else
    path.takeWhile (fun c => !(c == ';'))

/-- Characters allowed in a URL scheme (`urllib.parse.scheme_chars`). -/
def isSchemeChar (c : Char) : Bool :=
  c.isAlpha || c.isDigit || c == '+' || c == '-' || c == '.'

/-- Characters that terminate the network-location part of a URL. -/
def isNetlocStop (c : Char) : Bool :=
  c == '/' || c == '?' || c == '#'

/-- The schemes for which `urlparse` splits `;params` off the path
(`urllib.parse.uses_params`); the relevant entry here is the empty scheme
of relative fragments — `"s3"` and other object-store schemes are absent. -/
def usesParams (scheme : Str) : Bool :=
  [([] : Str), ("ftp".toList), ("hdl".toList), ("prospero".toList), ("http".toList),
      ("imap".toList), ("https".toList), ("shttp".toList), ("rtsp".toList),
      ("rtsps".toList), ("rtspu".toList), ("sip".toList), ("sips".toList),
      ("mms".toList), ("sftp".toList), ("tel".toList)].contains scheme

/-- The first three components `(scheme, netloc, path)` of
`urllib.parse.urlparse`: detect a scheme before the first colon, a netloc
after `//`, then strip fragment (`#`), query (`?`) and, for schemes in
`uses_params`, the `;params` suffix. -/
def urlparse3 (url : Str) : Str × Str × Str :=
  let schemeRest : Str × Str :=
    match splitFirstAt ':' url with
    | (pre, some post) =>
        if !pre.isEmpty && (pre.headD ' ').isAlpha then
          if pre.all isSchemeChar then (pre.map Char.toLower, post)
          else ([], url)
        else ([], url)
    | (_, none) => ([], url)
  let netlocRest : Str × Str :=
    match schemeRest.2 with
    | '/' :: '/' :: t =>
        (t.takeWhile (fun c => !isNetlocStop c), t.dropWhile (fun c => !isNetlocStop c))
    | r => ([], r)
  let beforeFrag := (splitFirstAt '#' netlocRest.2).1
  let beforeQuery := (splitFirstAt '?' beforeFrag).1
  let path := if usesParams schemeRest.1 then splitParams beforeQuery else beforeQuery
  (schemeRest.1, netlocRest.1, path)

/-- The literal `"s3://"`. -/
def s3Pre : Str := ['s', '3', ':', '/', '/']

/-- The literal `"://"`. -/
def schemeSep : Str := [':', '/', '/']

namespace S3Parser

/-- Models `S3Parser.sep`: the path separator. -/
def sep : Str := ['/']

/-- Models `S3Parser.join`: delegates to `posixpath.join`. -/
def join (path : Str) (paths : List Str) : Str :=
  posixJoin path paths

/-- Models `S3Parser.split`: urlparse the path, strip leading slashes from the key
part, split at the last separator; with no bucket return `(bucket, name)`,
else `(scheme + "://" + bucket + "/" + parent, name)`. -/
def split (path : Str) : Str × Str :=
  let u := urlparse3 path
  let scheme := u.1
  let bucket := u.2.1
  let pref := u.2.2
  let stripped := pref.dropWhile (fun c => c == '/')
  let pn := rpartitionSlash stripped
  if bucket.isEmpty then (bucket, pn.2)
  else (scheme ++ schemeSep ++ bucket ++ '/' :: pn.1, pn.2)

/-- Models `S3Parser.splitdrive`: `(f"{scheme}://{bucket}", key)` with leading
slashes stripped from the key. -/
def splitdrive (path : Str) : Str × Str :=
  let u := urlparse3 path
  (u.1 ++ schemeSep ++ u.2.1, u.2.2.dropWhile (fun c => c == '/'))

/-- Models `S3Parser.isabs`: true iff the string contains `"://"`. -/
def isabs (path : Str) : Bool :=
  containsSub schemeSep path

end S3Parser

/-- The Python exceptions that the component raises or observes.  String
arguments carry the message payload; where the source interpolates the
path (or name) into the message, the constructors below carry the full
interpolated text so that every failure message retains the offending
path string. -/
inductive PyErr where
  | s3exc (msg : Str)
  | otherExc (msg : Str)
  | fileNotFound (path : Str)
  | notADirectory (msg : Str)
  | fileExists (msg : Str)
  | unsupportedOp
  | valueError (msg : Str)
  | genericExc (msg : Str)
  | stopIteration
  | nameError (ident : Str)
  | notImplementedError (msg : Str)
  deriving DecidableEq, Repr

/-- Whether an exception is (a subclass of) `S3Exception` — the class the
source catches with `except S3Exception`. -/
def PyErr.isS3 : PyErr → Bool
  | .s3exc _ => true
  | _ => false

/-- Whether an exception is caught by `except (OSError, ValueError)` in
`PathBase.is_dir`: the OS-error constructors (`FileNotFoundError`,
`NotADirectoryError`, `FileExistsError`) and `ValueError`.  `otherExc`
models an arbitrary non-S3, non-OS, non-ValueError backend exception. -/
def PyErr.caughtByIsDir : PyErr → Bool
  | .fileNotFound _ => true
  | .notADirectory _ => true
  | .fileExists _ => true
  | .valueError _ => true
  | _ => false

/-- The record returned by `head_object`: key, size and mtime. -/
structure HeadResult where
  key : Str
  size : Nat
  last_modified : Option Int
  deriving DecidableEq, Repr

/-- One object record inside a listing page. -/
structure ObjectInfo where
  key : Str
  size : Nat
  last_modified : Option Int
  deriving DecidableEq, Repr

/-- One page of a delimited listing: synthetic subdirectory prefixes and
object records. -/
structure ListingPage where
  common_prefixes : List Str
  object_info : List ObjectInfo
  deriving DecidableEq, Repr

/-- The storage-client collaborator, as an oracle of primitive operations
(the real client lives in a separate package).  Streams and writers are
abstracted to numeric handles.  `list_objects` takes bucket, prefix and an
optional delimiter and returns the full lazy page sequence at once. -/
structure S3ClientOracle where
  get_object : Str → Str → Except PyErr Nat
  put_object : Str → Str → Except PyErr Nat
  head_object : Str → Str → Except PyErr HeadResult
  list_objects : Str → Str → Option Str → Except PyErr (List ListingPage)
  delete_object : Str → Str → Except PyErr Unit

/-- The client transfer configuration (throughput target, part size);
treated by every claim as an uninterpreted value. -/
structure S3ClientConfig where
  throughput_target_gbps : Nat
  part_size : Nat
  deriving DecidableEq, Repr

/-- A path node: the raw path string plus region, client configuration and
client handle identity.  The live client's behaviour is passed to each
operation separately as an `S3ClientOracle`. -/
structure S3Path where
  raw_path : Str
  region : Str
  s3_client_config : S3ClientConfig
  clientId : Nat
  deriving DecidableEq, Repr

/-- Models `path[1:] if path.startswith("/") else path`: drop one leading slash. -/
def stripLeadingSlash : Str → Str
  | '/' :: t => t
  | l => l

namespace S3Path

/-- Modelled from the spec: `str(self)` of the base path library
(pathlib-abc `PathBase`, not under src/) is the normalized string form of
the path; a node built from one path string renders as that string. -/
def str (p : S3Path) : Str := p.raw_path

/-- Models `__eq__`: equality is `str(self) == str(other)`. -/
def beq (p q : S3Path) : Bool := p.str == q.str

/-- A concrete stand-in for Python's string hash; `__hash__` is
`hash(str(self))`, i.e. `pyHash` applied to the string form. -/
def pyHash (s : Str) : Nat :=
  s.foldl (fun h c => (h * 31 + c.toNat) % 2 ^ 64) 5381

/-- Models `__hash__`: the hash of the string form. -/
def hashS3 (p : S3Path) : Nat := pyHash p.str

/-- Models `is_absolute()`: delegates to `S3Parser.isabs` on the string form. -/
def is_absolute (p : S3Path) : Bool := S3Parser.isabs p.str

/-- Modelled from the spec: the `drive` accessor of the base path library
(pathlib-abc, not under src/) — `scheme://bucket`, the first component of
`splitdrive`. -/
def drive (p : S3Path) : Str := (S3Parser.splitdrive p.str).1

/-- Modelled from the spec: the `anchor` of the base path library
(pathlib-abc, not under src/) — the drive together with the root
separator for an absolute path, empty for a relative fragment. -/
def anchor (p : S3Path) : Str :=
  if p.is_absolute then p.drive ++ ['/'] else []

/-- The key portion of the raw path split at separators (empty list when
there is no key portion). -/
def keySegs (p : S3Path) : List Str :=
  let rest := (S3Parser.splitdrive p.str).2
  if rest.isEmpty then [] else splitOnSlash rest

/-- Modelled from the spec: `parts` of the base path library (pathlib-abc,
not under src/) for an absolute path — the anchor followed by the key
segments. -/
def parts (p : S3Path) : List Str :=
  if p.is_absolute then p.anchor :: p.keySegs else p.keySegs

/-- Models `bucket`: the drive minus its `"s3://"` prefix when the node is
absolute under the `s3` scheme, else the empty string. -/
def bucket (p : S3Path) : Str :=
  if p.is_absolute && s3Pre.isPrefixOf p.drive then p.drive.drop 5 else []

/-- Models `key`: the separator-join of `parts[1:]` when absolute with more than
one part, else the empty string. -/
def key (p : S3Path) : Str :=
  if p.is_absolute && decide (p.parts.length > 1) then
    List.intercalate ['/'] p.parts.tail
  else []

/-- Models `with_segments(*pathsegments)`: join the segments with the separator,
drop one leading slash, prepend the anchor unless already a prefix, and
build a node sharing this node's client, region and configuration. -/
def with_segments (p : S3Path) (segs : List Str) : S3Path :=
  let path0 := List.intercalate ['/'] segs
  let path1 := stripLeadingSlash path0
  let path2 := if p.anchor.isPrefixOf path1 then path1 else p.anchor ++ path1
  { p with raw_path := path2 }

end S3Path

deriving instance DecidableEq for Except

/-- Models `stat.S_IFDIR`. -/
def S_IFDIR : Nat := 16384

/-- Models `stat.S_IFREG`. -/
def S_IFREG : Nat := 32768

/-- The fields of the `os.stat_result` built by `stat()` that carry
information: mode, size and mtime (the remaining slots are filled with
constants in the source). -/
structure StatResult where
  st_mode : Nat
  st_size : Nat
  st_mtime : Option Int
  deriving DecidableEq, Repr

/-- Models `f"No stats available for {self}; it may not exist."` -/
def msgNoStats (path : Str) : Str :=
  ("No stats available for ".toList) ++ path ++ ("; it may not exist.".toList)

/-- Models `f"Path {self} is not empty"` -/
def msgNotEmpty (path : Str) : Str :=
  ("Path ".toList) ++ path ++ (" is not empty".toList)

/-- Models `f"Path {self} is a directory; call rmdir instead of unlink."` -/
def msgIsADir (path : Str) : Str :=
  ("Path ".toList) ++ path ++ (" is a directory; call rmdir instead of unlink.".toList)

/-- Models `f"Invalid name {name!r}"` -/
def msgInvalidName (name : Str) : Str :=
  ("Invalid name ".toList) ++ name

/-- Models `"not a s3 folder"` -/
def msgNotAFolder : Str := ("not a s3 folder".toList)

/-- Models `"s3 folder already exists"` -/
def msgFolderExists : Str := ("s3 folder already exists".toList)

/-- The glob message for patterns containing a parent reference (apostrophes
elided from the literal). -/
def msgGlobDotDot : Str :=
  ("Relative paths with .. not supported in glob patterns".toList)

/-- Models `"Non-relative patterns are unsupported"` -/
def msgGlobNonRelative : Str := ("Non-relative patterns are unsupported".toList)

/-- Models `s.endswith("/")`. -/
def endsSlash (s : Str) : Bool := s.getLast? == some '/'

/-- Models `prefix.rstrip("/")`: drop all trailing slashes. -/
def rstripSlash (s : Str) : Str :=
  (s.reverse.dropWhile (fun c => c == '/')).reverse

namespace S3Path

/-- An opened file object: the backend stream/writer handle and whether it
was wrapped in a `TextIOWrapper` (mode without `"b"`); the wrapper's
encoding/errors/newline policy carries no information relevant here and is
elided. -/
structure FileObj where
  handle : Nat
  textWrapped : Bool
  deriving DecidableEq, Repr

/-- Models `open(mode, buffering=-1, ...)`: reject explicit buffering or a
non-absolute node; strip `"btU"` from the mode; `"r"` requests an object
stream, translating any `S3Exception` to `FileNotFoundError` carrying the
path string; `"w"` requests a writer, re-raising backend errors unchanged;
anything else is unsupported; a textual mode wraps the stream. -/
def openM (p : S3Path) (client : S3ClientOracle) (mode : Str) (buffering : Int) :
    Except PyErr FileObj :=
  if buffering != -1 || !p.is_absolute then .error .unsupportedOp
  else
    let action := mode.filter (fun c => !(c == 'b' || c == 't' || c == 'U'))
    if action == ['r'] then
      match client.get_object p.bucket p.key with
      | .ok h => .ok ⟨h, !mode.contains 'b'⟩
      | .error e => if e.isS3 then .error (.fileNotFound p.str) else .error e
    else if action == ['w'] then
      match client.put_object p.bucket p.key with
      | .ok h => .ok ⟨h, !mode.contains 'b'⟩
      | .error e => .error e
    else .error .unsupportedOp

/-- Models `stat()`: head the key; on `S3Exception`, head the key with a trailing
separator; on `S3Exception`, list the key as a prefix and synthesize a
zero-size directory record if the first page has an object; otherwise raise
`ValueError` carrying the path.  Non-`S3Exception` errors propagate at each
step. -/
def stat (p : S3Path) (client : S3ClientOracle) : Except PyErr StatResult :=
  match client.head_object p.bucket p.key with
  | .ok info =>
      .ok ⟨if endsSlash info.key then S_IFDIR else S_IFREG, info.size, info.last_modified⟩
  | .error e =>
      if e.isS3 then
        match client.head_object p.bucket (p.key ++ ['/']) with
        | .ok info2 => .ok ⟨S_IFDIR, info2.size, info2.last_modified⟩
        | .error e2 =>
            if e2.isS3 then
              match client.list_objects p.bucket p.key none with
              | .ok pages =>
                  match pages with
                  | [] => .error (.valueError (msgNoStats p.str))
                  | pg :: _ =>
                      if decide (pg.object_info.length > 0) then .ok ⟨S_IFDIR, 0, none⟩
                      else .error (.valueError (msgNoStats p.str))
              | .error e3 =>
                  if e3.isS3 then .error (.valueError (msgNoStats p.str))
                  else .error e3
            else .error e2
      else .error e

/-- Modelled from the spec: `is_dir()` of the base path library
(pathlib-abc `PathBase`, not under src/) — `stat()` succeeding with a
directory mode; `OSError` and `ValueError` from `stat()` mean "not a
directory", other exceptions propagate. -/
def is_dirE (p : S3Path) (client : S3ClientOracle) : Except PyErr Bool :=
  match p.stat client with
  | .ok r => .ok (r.st_mode == S_IFDIR)
  | .error e => if e.caughtByIsDir then .ok false else .error e

/-- Models `iterdir()`: fail with `NotADirectoryError` unless the node resolves as
a directory; list the separator-terminated key with delimiter `"/"`; yield
a child node per common prefix (stripped of trailing slashes) then per
object record whose key differs from the queried key; an `S3Exception`
during listing silently ends the iteration. -/
def iterdir (p : S3Path) (client : S3ClientOracle) : Except PyErr (List S3Path) :=
  match p.is_dirE client with
  | .error e => .error e
  | .ok false => .error (.notADirectory msgNotAFolder)
  | .ok true =>
      let dkey := if endsSlash p.key then p.key else p.key ++ ['/']
      match client.list_objects p.bucket dkey (some ['/']) with
      | .error e => if e.isS3 then .ok [] else .error e
      | .ok pages =>
          .ok (List.flatten (pages.map (fun page =>
            page.common_prefixes.map (fun pre => p.with_segments [rstripSlash pre]) ++
              (page.object_info.filter (fun info => info.key != dkey)).map
                (fun info => p.with_segments [info.key]))))

/-- The outcome of `mkdir`: the result, the key passed to `put_object`
when the call was reached, whether the writer was closed, and the number
of bytes written to it (the source writes none, so a successful `mkdir`
materializes a zero-byte marker). -/
structure MkdirOutcome where
  result : Except PyErr Unit
  putKeyCalled : Option Str
  writerClosed : Bool
  bytesWritten : Nat
  deriving DecidableEq, Repr

/-- Models `mkdir(mode, parents, exist_ok)`: if the node resolves as a directory,
succeed silently under `exist_ok` else raise `FileExistsError`; otherwise
put a separator-terminated marker object for the node's key, closing the
writer in a `finally` block (no writer exists to close when `put_object`
itself fails).  `mode` and `parents` are accepted and ignored. -/
def mkdir (p : S3Path) (client : S3ClientOracle) (mode : Nat) (parents : Bool)
    (exist_ok : Bool) : MkdirOutcome :=
  match p.is_dirE client with
  | .error e => ⟨.error e, none, false, 0⟩
  | .ok true =>
      if exist_ok then ⟨.ok (), none, false, 0⟩
      else ⟨.error (.fileExists msgFolderExists), none, false, 0⟩
  | .ok false =>
      let mkey := if endsSlash p.key then p.key else p.key ++ ['/']
      match client.put_object p.bucket mkey with
      | .ok _ => ⟨.ok (), some mkey, true, 0⟩
      | .error e => ⟨.error e, some mkey, false, 0⟩

/-- The outcome of `unlink` or `rmdir`: the result and the key passed to
`delete_object` when the call was reached. -/
structure DeleteOutcome where
  result : Except PyErr Unit
  deletedKey : Option Str
  deriving DecidableEq, Repr

/-- Models `unlink(missing_ok)`: if the node resolves as a directory, return
silently when `missing_ok` is set, else raise; otherwise delete the object
key. -/
def unlink (p : S3Path) (client : S3ClientOracle) (missing_ok : Bool) : DeleteOutcome :=
  match p.is_dirE client with
  | .error e => ⟨.error e, none⟩
  | .ok true =>
      if missing_ok then ⟨.ok (), none⟩
      else ⟨.error (.genericExc (msgIsADir p.str)), none⟩
  | .ok false =>
      match client.delete_object p.bucket p.key with
      | .ok _ => ⟨.ok (), some p.key⟩
      | .error e => ⟨.error e, some p.key⟩

/-- Models `rmdir()`: probe `next(self.iterdir())` inside a `try` whose only
handler is `except NotADirectoryError` (which deletes the key).  A yielded
entry raises `Exception("... is not empty")`; an exhausted iterator raises
`StopIteration`, which the handler does not catch; any other propagated
error passes through. -/
def rmdir (p : S3Path) (client : S3ClientOracle) : DeleteOutcome :=
  match p.iterdir client with
  | .error (.notADirectory _) =>
      match client.delete_object p.bucket p.key with
      | .ok _ => ⟨.ok (), some p.key⟩
      | .error e => ⟨.error e, some p.key⟩
  | .error e => ⟨.error e, none⟩
  | .ok [] => ⟨.error .stopIteration, none⟩
  | .ok (_ :: _) => ⟨.error (.genericExc (msgNotEmpty p.str)), none⟩

/-- Models `glob(pattern, ...)`: reject patterns containing `".."` or starting
with the anchor or a slash with `NotImplementedError`; the next source
line references `PurePosixPath`, a name the module neither imports nor
defines, so every pattern that passes the checks raises `NameError` before
any matching is attempted. -/
def glob (p : S3Path) (pattern : Str) : Except PyErr (List S3Path) :=
  if containsSub ['.', '.'] pattern then .error (.notImplementedError msgGlobDotDot)
  else if p.anchor.isPrefixOf pattern || pattern.take 1 == ['/'] then
    .error (.notImplementedError msgGlobNonRelative)
  else .error (.nameError ("PurePosixPath".toList))

/-- Models `with_name(name)`: raise `ValueError` when `split(name)` has a
non-empty first component; otherwise rebuild from the parent of the raw
path and the new name. -/
def with_name (p : S3Path) (name : Str) : Except PyErr S3Path :=
  if !(S3Parser.split name).1.isEmpty then .error (.valueError (msgInvalidName name))
  else .ok (p.with_segments [(S3Parser.split p.raw_path).1, name])

end S3Path

/-- A character that may appear in the key portion of a well-formed
absolute path: not a URL metacharacter. -/
def pathChar (c : Char) : Prop :=
  c ≠ ':' ∧ c ≠ '?' ∧ c ≠ '#' ∧ c ≠ ';'

instance (c : Char) : Decidable (pathChar c) := by
  unfold pathChar; infer_instance

/-- A character that may appear in a bucket name or in a single key
segment: a `pathChar` that is not a separator. -/
def goodChar (c : Char) : Prop :=
  pathChar c ∧ c ≠ '/'

instance (c : Char) : Decidable (goodChar c) := by
  unfold goodChar; infer_instance

/-- A fixed transfer configuration for the concrete scenarios. -/
def cfg400 : S3ClientConfig := ⟨400, 67108864⟩

/-- A node for the directory `s3://bucket/d`. -/
def nodeDir : S3Path := ⟨("s3://bucket/d".toList), ("us-east-1".toList), cfg400, 0⟩

/-- A node for the object `s3://bucket/f.txt`. -/
def nodeFile : S3Path := ⟨("s3://bucket/f.txt".toList), ("us-east-1".toList), cfg400, 0⟩

/-- A node for the object `s3://bucket/a/b`. -/
def nodeAB : S3Path := ⟨("s3://bucket/a/b".toList), ("us-east-1".toList), cfg400, 0⟩

/-- A node under a non-s3 scheme, `gs://b/k`. -/
def gsNode : S3Path := ⟨("gs://b/k".toList), ("us-east-1".toList), cfg400, 0⟩

/-- A relative-fragment node. -/
def relNode : S3Path := ⟨("a/b".toList), ("us-east-1".toList), cfg400, 0⟩

/-- A client for which `d` resolves as an empty directory: heading the bare
key fails with `S3Exception`, heading `d/` succeeds, and the delimited
listing of `d/` yields one page with no entries. -/
def clEmptyDir : S3ClientOracle where
  get_object := fun _ _ => .error (.s3exc [])
  put_object := fun _ _ => .ok 1
  head_object := fun _ k =>
    if k == ("d/".toList) then .ok ⟨("d/".toList), 0, some 5⟩ else .error (.s3exc [])
  list_objects := fun _ _ _ => .ok [⟨[], []⟩]
  delete_object := fun _ _ => .ok ()

/-- A client for which `d` resolves as a directory holding the objects
`d/x.txt` and `d/y.csv`, the sub-prefix `d/sub/` (with `d/sub/z.txt`
beneath it) and its own zero-byte marker `d/`. -/
def clPopulatedDir : S3ClientOracle where
  get_object := fun _ _ => .error (.s3exc [])
  put_object := fun _ _ => .ok 1
  head_object := fun _ k =>
    if k == ("d/".toList) then .ok ⟨("d/".toList), 0, some 5⟩ else .error (.s3exc [])
  list_objects := fun _ k deli =>
    if deli == some ['/'] then
      if k == ("d/sub/".toList) then
        .ok [⟨[], [⟨("d/sub/z.txt".toList), 2, some 7⟩]⟩]
      else
        .ok [⟨[("d/sub/".toList)],
          [⟨("d/".toList), 0, some 5⟩, ⟨("d/x.txt".toList), 3, some 7⟩,
            ⟨("d/y.csv".toList), 4, some 7⟩]⟩]
    else .ok [⟨[], [⟨("d/x.txt".toList), 3, some 7⟩]⟩]
  delete_object := fun _ _ => .ok ()

/-- A client on which both head probes fail with `S3Exception` and the
prefix listing returns an empty first page followed by a page containing
one object. -/
def clC2pages : S3ClientOracle where
  get_object := fun _ _ => .error (.s3exc [])
  put_object := fun _ _ => .ok 1
  head_object := fun _ _ => .error (.s3exc [])
  list_objects := fun _ _ _ => .ok [⟨[], []⟩, ⟨[], [⟨("d/x".toList), 1, none⟩]⟩]
  delete_object := fun _ _ => .ok ()

/-- A client for which `f.txt` is an ordinary 12-byte object. -/
def clFile : S3ClientOracle where
  get_object := fun _ _ => .ok 9
  put_object := fun _ _ => .ok 1
  head_object := fun _ k =>
    if k == ("f.txt".toList) then .ok ⟨("f.txt".toList), 12, some 5⟩ else .error (.s3exc [])
  list_objects := fun _ _ _ => .ok []
  delete_object := fun _ _ => .ok ()

/-- A client whose `get_object` fails with an `S3Exception`. -/
def clGetS3 : S3ClientOracle where
  get_object := fun _ _ => .error (.s3exc ("no such key".toList))
  put_object := fun _ _ => .ok 1
  head_object := fun _ _ => .error (.s3exc [])
  list_objects := fun _ _ _ => .ok []
  delete_object := fun _ _ => .ok ()

/-- A client whose `get_object` fails with a non-S3 exception. -/
def clGetOther : S3ClientOracle where
  get_object := fun _ _ => .error (.otherExc ("boom".toList))
  put_object := fun _ _ => .ok 1
  head_object := fun _ _ => .error (.s3exc [])
  list_objects := fun _ _ _ => .ok []
  delete_object := fun _ _ => .ok ()

theorem takeWhile_eq_self {p : Char → Bool} :
    ∀ {l : Str}, (∀ c ∈ l, p c = true) → l.takeWhile p = l := by
  intro l
  induction l with
  | nil => intro _; rfl
  | cons c t ih =>
      intro h
      have hc : p c = true := h c (List.mem_cons_self _ _)
      simp [List.takeWhile, hc, ih fun x hx => h x (List.mem_cons_of_mem _ hx)]

theorem dropWhile_eq_nil {p : Char → Bool} :
    ∀ {l : Str}, (∀ c ∈ l, p c = true) → l.dropWhile p = [] := by
  intro l
  induction l with
  | nil => intro _; rfl
  | cons c t ih =>
      intro h
      have hc : p c = true := h c (List.mem_cons_self _ _)
      simp [List.dropWhile, hc, ih fun x hx => h x (List.mem_cons_of_mem _ hx)]

theorem dropWhile_eq_self {p : Char → Bool} {l : Str}
    (h : ∀ c ∈ l.head?.toList, p c = false) : l.dropWhile p = l := by
  cases l with
  | nil => rfl
  | cons c t => simp [List.dropWhile, h c (by simp)]

theorem takeWhile_append_stop {p : Char → Bool} {d : Char} {t : Str}
    (hd : p d = false) :
    ∀ {b : Str}, (∀ c ∈ b, p c = true) → (b ++ d :: t).takeWhile p = b := by
  intro b
  induction b with
  | nil => intro _; simp [List.takeWhile, hd]
  | cons c bt ih =>
      intro h
      have hc : p c = true := h c (List.mem_cons_self _ _)
      simp [List.takeWhile, hc, ih fun x hx => h x (List.mem_cons_of_mem _ hx)]

theorem dropWhile_append_stop {p : Char → Bool} {d : Char} {t : Str}
    (hd : p d = false) :
    ∀ {b : Str}, (∀ c ∈ b, p c = true) → (b ++ d :: t).dropWhile p = d :: t := by
  intro b
  induction b with
  | nil => intro _; simp [List.dropWhile, hd]
  | cons c bt ih =>
      intro h
      have hc : p c = true := h c (List.mem_cons_self _ _)
      simp [List.dropWhile, hc, ih fun x hx => h x (List.mem_cons_of_mem _ hx)]

theorem splitFirstAt_not_mem {t : Char} :
    ∀ {s : Str}, (∀ c ∈ s, (c == t) = false) → splitFirstAt t s = (s, none) := by
  intro s
  induction s with
  | nil => intro _; rfl
  | cons c cs ih =>
      intro h
      have hc := h c (List.mem_cons_self _ _)
      simp [splitFirstAt, hc, ih fun x hx => h x (List.mem_cons_of_mem _ hx)]

theorem rpartitionSlash_no_slash {s : Str}
    (h : ∀ c ∈ s, (c == '/') = false) : rpartitionSlash s = ([], s) := by
  unfold rpartitionSlash
  have hrev : ∀ c ∈ s.reverse, (!(c == '/')) = true := by
    intro c hc
    simp [h c (List.mem_reverse.mp hc)]
  rw [takeWhile_eq_self hrev, dropWhile_eq_nil hrev]

theorem rpartitionSlash_last {d f : Str}
    (hf : ∀ c ∈ f, (c == '/') = false) : rpartitionSlash (d ++ '/' :: f) = (d, f) := by
  unfold rpartitionSlash
  have hrevmem : ∀ c ∈ f.reverse, (!(c == '/')) = true := by
    intro c hc
    simp [hf c (List.mem_reverse.mp hc)]
  have hrw : (d ++ '/' :: f).reverse = f.reverse ++ '/' :: d.reverse := by
    simp
  have hslash : (!(('/' : Char) == '/')) = false := by decide
  rw [hrw, takeWhile_append_stop hslash hrevmem, dropWhile_append_stop hslash hrevmem]
  simp

theorem isPrefixOf_append_self : ∀ (l t : Str), l.isPrefixOf (l ++ t) = true := by
  intro l t
  induction l with
  | nil => simp [List.isPrefixOf]
  | cons c cs ih => simp [List.isPrefixOf, ih]

theorem containsSub_append_left (pat : Str) :
    ∀ (pre s : Str), containsSub pat s = true → containsSub pat (pre ++ s) = true := by
  intro pre
  induction pre with
  | nil => intro s h; simpa using h
  | cons c t ih =>
      intro s h
      simp only [List.cons_append, containsSub, Bool.or_eq_true]
      exact Or.inr (ih s h)

theorem netlocKeep_of_goodChar {c : Char} (h : goodChar c) : (!isNetlocStop c) = true := by
  obtain ⟨⟨_, h2, h3, _⟩, h5⟩ := h
  simp [isNetlocStop, h2, h3, h5]

theorem urlparse3_s3 {b rest : Str}
    (hbg : ∀ c ∈ b, goodChar c) (hr : ∀ c ∈ rest, pathChar c) :
    urlparse3 (s3Pre ++ (b ++ '/' :: rest)) = (['s', '3'], b, '/' :: rest) := by
  have hx : s3Pre ++ (b ++ '/' :: rest) =
      's' :: '3' :: ':' :: ('/' :: '/' :: (b ++ '/' :: rest)) := by
    simp [s3Pre]
  have h1 : splitFirstAt ':' ('s' :: '3' :: ':' :: ('/' :: '/' :: (b ++ '/' :: rest))) =
      (['s', '3'], some ('/' :: '/' :: (b ++ '/' :: rest))) := by
    simp [splitFirstAt]
  have hslash : (!isNetlocStop '/') = false := by decide
  have hbnet : ∀ c ∈ b, (!isNetlocStop c) = true :=
    fun c hc => netlocKeep_of_goodChar (hbg c hc)
  have htake : (b ++ '/' :: rest).takeWhile (fun c => !isNetlocStop c) = b :=
    takeWhile_append_stop hslash hbnet
  have hdrop : (b ++ '/' :: rest).dropWhile (fun c => !isNetlocStop c) = '/' :: rest :=
    dropWhile_append_stop hslash hbnet
  have hfrag : splitFirstAt '#' ('/' :: rest) = ('/' :: rest, none) := by
    apply splitFirstAt_not_mem
    intro c hc
    rcases List.mem_cons.mp hc with h | h
    · subst h; decide
    · obtain ⟨_, _, h3, _⟩ := hr c h
      simp [h3]
  have hquery : splitFirstAt '?' ('/' :: rest) = ('/' :: rest, none) := by
    apply splitFirstAt_not_mem
    intro c hc
    rcases List.mem_cons.mp hc with h | h
    · subst h; decide
    · obtain ⟨_, h2, _, _⟩ := hr c h
      simp [h2]
  have hsc : isSchemeChar 's' = true := by decide
  have h3c : isSchemeChar '3' = true := by decide
  have hup : usesParams ['s', '3'] = false := by decide
  rw [hx]
  simp [urlparse3, h1, htake, hdrop, hfrag, hquery, hsc, h3c, hup]

theorem isabs_s3 (b rest : Str) : S3Parser.isabs (s3Pre ++ (b ++ '/' :: rest)) = true := by
  have hx : s3Pre ++ (b ++ '/' :: rest) =
      ['s', '3'] ++ (':' :: '/' :: '/' :: (b ++ '/' :: rest)) := by
    simp [s3Pre]
  have hbase : containsSub schemeSep (':' :: '/' :: '/' :: (b ++ '/' :: rest)) = true := by
    simp [containsSub, schemeSep, List.isPrefixOf]
  unfold S3Parser.isabs
  rw [hx]
  exact containsSub_append_left _ _ _ hbase

theorem dropSlashes_head {rest : Str} (hhd : ∀ c ∈ rest.head?.toList, c ≠ '/') :
    List.dropWhile (fun c => c == '/') ('/' :: rest) = rest := by
  have h1 : List.dropWhile (fun c => c == '/') ('/' :: rest) =
      List.dropWhile (fun c => c == '/') rest := by
    simp [List.dropWhile]
  rw [h1]
  apply dropWhile_eq_self
  intro c hc
  simp [hhd c hc]

theorem split_s3 {b rest : Str} (hb : b ≠ [])
    (hbg : ∀ c ∈ b, goodChar c) (hr : ∀ c ∈ rest, pathChar c)
    (hhd : ∀ c ∈ rest.head?.toList, c ≠ '/') :
    S3Parser.split (s3Pre ++ (b ++ '/' :: rest)) =
      (s3Pre ++ b ++ '/' :: (rpartitionSlash rest).1, (rpartitionSlash rest).2) := by
  have hbe : b.isEmpty = false := by
    cases b with
    | nil => exact absurd rfl hb
    | cons _ _ => rfl
  unfold S3Parser.split
  rw [urlparse3_s3 hbg hr]
  simp [dropSlashes_head hhd, hbe, schemeSep, s3Pre]

theorem splitdrive_s3 {b rest : Str}
    (hbg : ∀ c ∈ b, goodChar c) (hr : ∀ c ∈ rest, pathChar c)
    (hhd : ∀ c ∈ rest.head?.toList, c ≠ '/') :
    S3Parser.splitdrive (s3Pre ++ (b ++ '/' :: rest)) = (s3Pre ++ b, rest) := by
  unfold S3Parser.splitdrive
  rw [urlparse3_s3 hbg hr]
  simp [dropSlashes_head hhd, schemeSep, s3Pre]

theorem intercalate_pair (s a b : Str) : List.intercalate s [a, b] = a ++ s ++ b := by
  simp [List.intercalate, List.intersperse]

theorem posixJoin_trailing (x k : Str) (hk : ∀ c ∈ k.head?.toList, c ≠ '/') :
    posixJoin (x ++ ['/']) [k] = x ++ '/' :: k := by
  unfold posixJoin
  simp only [List.foldl]
  split
  · next t => exact absurd rfl (hk '/' (by simp))
  · have hlast : (x ++ ['/']).getLast? = some '/' := by simp
    simp [hlast]

theorem split_relative_bucket_empty {nm : Str}
    (h1 : ∀ c ∈ nm, (c == ':') = false)
    (h2 : ¬ ∃ t, nm = '/' :: '/' :: t) : (S3Parser.split nm).1 = [] := by
  have hnet : (urlparse3 nm).2.1 = [] := by
    unfold urlparse3
    rw [splitFirstAt_not_mem h1]
    simp only
    split
    · next t => exact absurd ⟨t, rfl⟩ h2
    · rfl
  simp only [S3Parser.split]
  rw [hnet]
  simp


/-- C1: For a node resolving as a directory, `rmdir()` does NOT succeed on
zero children: the emptiness probe `next(self.iterdir())` raises
`StopIteration`, which the handler (`except NotADirectoryError`) does not
catch, so an empty directory makes `rmdir` raise `StopIteration` without
deleting anything.  A directory with at least one child does fail with the
"is not empty" error as the claim states.  This theorem evaluates the code
at the failing input. -/
theorem c1_rmdir_empty_directory_bug :
    nodeDir.is_dirE clEmptyDir = .ok true ∧
    nodeDir.iterdir clEmptyDir = .ok [] ∧
    nodeDir.rmdir clEmptyDir = ⟨.error .stopIteration, none⟩ ∧
    nodeDir.rmdir clPopulatedDir = ⟨.error (.genericExc (msgNotEmpty nodeDir.str)), none⟩ := by
  decide

/-- C5: `glob` can never match anything: after the pattern checks, the
source evaluates `PurePosixPath(pattern)`, a name the module neither
imports nor defines, so a `NameError` is raised before any matching.  The
first conjunct fixes the claim's scenario (the directory holds `x.txt`,
`y.csv` and the sub-prefix `sub`); the remaining conjuncts evaluate the
code at the claimed patterns. -/
theorem c5_glob_nameerror_bug :
    (nodeDir.iterdir clPopulatedDir).map (fun l => l.map S3Path.str) =
      .ok [("s3://bucket/d/sub".toList), ("s3://bucket/d/x.txt".toList),
        ("s3://bucket/d/y.csv".toList)] ∧
    nodeDir.glob ("*.txt".toList) = .error (.nameError ("PurePosixPath".toList)) ∧
    nodeDir.glob ("**/*.txt".toList) = .error (.nameError ("PurePosixPath".toList)) := by
  decide

/-- C8: equality and hashing are determined solely by the string form:
nodes with equal string representations compare equal and hash
identically, whatever their region, configuration or client handle. -/
theorem c8_eq_hash_by_string (p q : S3Path) (h : p.str = q.str) :
    p.beq q = true ∧ p.hashS3 = q.hashS3 := by
  constructor
  · simp [S3Path.beq, h]
  · simp [S3Path.hashS3, h]

/-- C8 witness: two nodes sharing the string `s3://bucket/k` but differing
in region, configuration and client handle are equal and hash alike. -/
theorem c8_eq_hash_by_string_witness :
    (S3Path.mk ("s3://bucket/k".toList) ("us-east-1".toList) ⟨400, 67108864⟩ 0).beq
        (S3Path.mk ("s3://bucket/k".toList) ("eu-west-2".toList) ⟨100, 8388608⟩ 7) = true ∧
      (S3Path.mk ("s3://bucket/k".toList) ("us-east-1".toList) ⟨400, 67108864⟩ 0).hashS3 =
        (S3Path.mk ("s3://bucket/k".toList) ("eu-west-2".toList) ⟨100, 8388608⟩ 7).hashS3 :=
  c8_eq_hash_by_string _ _ rfl

/-- C9: `bucket` is non-empty only for an absolute node whose drive starts
with exactly `s3://`; the absolute path `gs://b/k` (accepted by `isabs`
since it contains `://`) has an empty bucket while its key is still `k`,
so I/O operations on it would address the empty bucket name. -/
theorem c9_bucket_only_s3_scheme :
    (∀ p : S3Path, ¬(p.is_absolute = true ∧ s3Pre.isPrefixOf p.drive = true) →
        p.bucket = []) ∧
    gsNode.is_absolute = true ∧ gsNode.bucket = [] ∧ gsNode.key = ['k'] := by
  refine ⟨?_, by decide, by decide, by decide⟩
  intro p h
  have hfalse : (p.is_absolute && s3Pre.isPrefixOf p.drive) = false := by
    cases h1 : p.is_absolute <;> cases h2 : s3Pre.isPrefixOf p.drive <;>
      simp_all
  simp [S3Path.bucket, hfalse]

/-- C9 witness: the general conjunct applied to the relative node `a/b`,
whose drive does not carry the `s3://` prefix. -/
theorem c9_bucket_only_s3_scheme_witness : relNode.bucket = [] :=
  c9_bucket_only_s3_scheme.1 relNode (by decide)

/-- C3: in read mode, a `get_object` failure of the storage-specific
exception type (per the collaborator contract, its "not found" signal) is
raised as `FileNotFoundError` carrying the node's path string, while any
error not of that type propagates unchanged. -/
theorem c3_open_read_error_translation (client : S3ClientOracle) (p : S3Path)
    (mode : Str) (e : PyErr)
    (hm : mode.filter (fun c => !(c == 'b' || c == 't' || c == 'U')) = ['r'])
    (habs : p.is_absolute = true)
    (hg : client.get_object p.bucket p.key = .error e) :
    (e.isS3 = true → p.openM client mode (-1) = .error (.fileNotFound p.str)) ∧
    (e.isS3 = false → p.openM client mode (-1) = .error e) := by
  constructor <;> intro h <;>
    (simp only [S3Path.openM]; rw [hm]; simp [habs, hg, h])

/-- C3 witness: an `S3Exception` from `get_object` surfaces as
`FileNotFoundError` carrying `s3://bucket/f.txt`, and a non-S3 error
propagates unchanged. -/
theorem c3_open_read_error_translation_witness :
    nodeFile.openM clGetS3 ("r".toList) (-1) = .error (.fileNotFound nodeFile.str) ∧
    nodeFile.openM clGetOther ("rb".toList) (-1) = .error (.otherExc ("boom".toList)) := by
  constructor
  · exact (c3_open_read_error_translation clGetS3 nodeFile ("r".toList) _
      (by decide) (by decide) rfl).1 rfl
  · exact (c3_open_read_error_translation clGetOther nodeFile ("rb".toList) _
      (by decide) (by decide) rfl).2 rfl

/-- C2 counterexample: both head probes fail with the storage-specific
error and the prefix listing contains an object — but only in its second
page.  The claim's step (3) ("if any object matches, report a zero-size
directory record") would report a directory; the code inspects only the
first page and raises the "may not exist" `ValueError` instead. -/
theorem c2_stat_any_object_counterexample :
    ((clC2pages.list_objects nodeDir.bucket nodeDir.key none).map
        (fun pages => pages.any (fun pg => !pg.object_info.isEmpty))) = .ok true ∧
    nodeDir.stat clC2pages = .error (.valueError (msgNoStats nodeDir.str)) := by
  decide

/-- C2 (amended): the `stat()` decision cascade — (1) a successful direct
head reports size/mtime with the mode decided by whether the returned key
ends with the separator; (2) on a storage-specific failure, a successful
head of the separator-suffixed key reports a directory; (3) on a further
storage-specific failure, a prefix listing whose FIRST page contains an
object record yields a zero-size directory; (4) otherwise the "may not
exist" `ValueError` carrying the path string is raised. -/
theorem c2_stat_cascade (client : S3ClientOracle) (p : S3Path) :
    (∀ info, client.head_object p.bucket p.key = .ok info →
        p.stat client =
          .ok ⟨if endsSlash info.key then S_IFDIR else S_IFREG, info.size,
            info.last_modified⟩) ∧
    (∀ m info2, client.head_object p.bucket p.key = .error (.s3exc m) →
        client.head_object p.bucket (p.key ++ ['/']) = .ok info2 →
        p.stat client = .ok ⟨S_IFDIR, info2.size, info2.last_modified⟩) ∧
    (∀ m m2 pg rest, client.head_object p.bucket p.key = .error (.s3exc m) →
        client.head_object p.bucket (p.key ++ ['/']) = .error (.s3exc m2) →
        client.list_objects p.bucket p.key none = .ok (pg :: rest) →
        pg.object_info ≠ [] →
        p.stat client = .ok ⟨S_IFDIR, 0, none⟩) ∧
    (∀ m m2, client.head_object p.bucket p.key = .error (.s3exc m) →
        client.head_object p.bucket (p.key ++ ['/']) = .error (.s3exc m2) →
        (client.list_objects p.bucket p.key none = .ok [] ∨
          (∃ pg rest, client.list_objects p.bucket p.key none = .ok (pg :: rest) ∧
            pg.object_info = []) ∨
          (∃ m3, client.list_objects p.bucket p.key none = .error (.s3exc m3))) →
        p.stat client = .error (.valueError (msgNoStats p.str))) := by
  refine ⟨?_, ?_, ?_, ?_⟩
  · intro info h1
    simp [S3Path.stat, h1]
  · intro m info2 h1 h2
    simp [S3Path.stat, h1, h2, PyErr.isS3]
  · intro m m2 pg rest h1 h2 h3 h4
    have hlen : 0 < pg.object_info.length := List.length_pos.mpr h4
    simp [S3Path.stat, h1, h2, h3, PyErr.isS3, hlen]
  · intro m m2 h1 h2 h3
    rcases h3 with h3 | ⟨pg, rest, h3, h4⟩ | ⟨m3, h3⟩
    · simp [S3Path.stat, h1, h2, h3, PyErr.isS3]
    · simp [S3Path.stat, h1, h2, h3, h4, PyErr.isS3]
    · simp [S3Path.stat, h1, h2, h3, PyErr.isS3]

/-- C2 witness: the cascade applied to concrete clients — a plain object
(branch 1) and the empty-first-page listing (branch 4). -/
theorem c2_stat_cascade_witness :
    nodeFile.stat clFile = .ok ⟨S_IFREG, 12, some 5⟩ ∧
    nodeDir.stat clC2pages = .error (.valueError (msgNoStats nodeDir.str)) := by
  constructor
  · have h := (c2_stat_cascade clFile nodeFile).1 ⟨("f.txt".toList), 12, some 5⟩
      (by decide)
    simpa using h
  · exact (c2_stat_cascade clC2pages nodeDir).2.2.2 [] [] (by decide) (by decide)
      (Or.inr (Or.inl ⟨⟨[], []⟩, [⟨[], [⟨("d/x".toList), 1, none⟩]⟩], by decide, rfl⟩))

/-- C4 counterexample: on a node resolving as a directory with
`missing_ok = True`, `unlink` returns silently without deleting — the
claim requires failure for every value of the flag. -/
theorem c4_unlink_directory_missing_ok_counterexample :
    nodeDir.is_dirE clEmptyDir = .ok true ∧
    nodeDir.unlink clEmptyDir true = ⟨.ok (), none⟩ := by
  decide

/-- C4 (amended): `unlink(missing_ok)` fails (without deleting) when the
node resolves as a directory and `missing_ok` is false; returns silently
without deleting when it resolves as a directory and `missing_ok` is true;
otherwise deletes the object key, the result being the backend delete
outcome. -/
theorem c4_unlink_behavior (client : S3ClientOracle) (p : S3Path) (missing_ok : Bool) :
    (p.is_dirE client = .ok true → missing_ok = false →
        p.unlink client missing_ok = ⟨.error (.genericExc (msgIsADir p.str)), none⟩) ∧
    (p.is_dirE client = .ok true → missing_ok = true →
        p.unlink client missing_ok = ⟨.ok (), none⟩) ∧
    (p.is_dirE client = .ok false →
        (p.unlink client missing_ok).deletedKey = some p.key ∧
        (p.unlink client missing_ok).result = client.delete_object p.bucket p.key) := by
  refine ⟨?_, ?_, ?_⟩
  · intro hd hm
    simp [S3Path.unlink, hd, hm]
  · intro hd hm
    simp [S3Path.unlink, hd, hm]
  · intro hd
    cases hdel : client.delete_object p.bucket p.key with
    | ok u => cases u; exact ⟨by simp [S3Path.unlink, hd, hdel], by simp [S3Path.unlink, hd, hdel]⟩
    | error e => exact ⟨by simp [S3Path.unlink, hd, hdel], by simp [S3Path.unlink, hd, hdel]⟩

/-- C4 witness: the three branches at concrete inputs — a directory with
the flag clear fails carrying the path, a directory with the flag set is a
silent no-op, and a plain object is deleted. -/
theorem c4_unlink_behavior_witness :
    nodeDir.unlink clEmptyDir false = ⟨.error (.genericExc (msgIsADir nodeDir.str)), none⟩ ∧
    nodeDir.unlink clEmptyDir true = ⟨.ok (), none⟩ ∧
    (nodeFile.unlink clFile false).deletedKey = some (("f.txt".toList)) ∧
    (nodeFile.unlink clFile false).result = .ok () := by
  refine ⟨?_, ?_, ?_, ?_⟩
  · exact (c4_unlink_behavior clEmptyDir nodeDir false).1 (by decide) rfl
  · exact (c4_unlink_behavior clEmptyDir nodeDir true).2.1 (by decide) rfl
  · exact ((c4_unlink_behavior clFile nodeFile false).2.2 (by decide)).1
  · exact ((c4_unlink_behavior clFile nodeFile false).2.2 (by decide)).2

/-- C10: for a node not resolving as a directory, `mkdir` is entirely
independent of its `mode` and `parents` arguments; it issues exactly one
`put_object` for the node's own separator-terminated marker key, writes no
bytes to the writer (a zero-byte marker), never consults parent prefixes
(the result is exactly the backend put outcome, so no missing-parent error
can arise), and the writer is closed whenever it was created. -/
theorem c10_mkdir_marker (client : S3ClientOracle) (p : S3Path)
    (mode mode2 : Nat) (parents parents2 exist_ok : Bool)
    (h : p.is_dirE client = .ok false) :
    p.mkdir client mode parents exist_ok = p.mkdir client mode2 parents2 exist_ok ∧
    (p.mkdir client mode parents exist_ok).putKeyCalled =
      some (if endsSlash p.key then p.key else p.key ++ ['/']) ∧
    endsSlash ((p.mkdir client mode parents exist_ok).putKeyCalled.getD []) = true ∧
    (p.mkdir client mode parents exist_ok).result =
      (client.put_object p.bucket
        (if endsSlash p.key then p.key else p.key ++ ['/'])).map (fun _ => ()) ∧
    (p.mkdir client mode parents exist_ok).bytesWritten = 0 ∧
    ((p.mkdir client mode parents exist_ok).result = .ok () →
        (p.mkdir client mode parents exist_ok).writerClosed = true) := by
  have hmarker : endsSlash (if endsSlash p.key then p.key else p.key ++ ['/']) = true := by
    by_cases hk : endsSlash p.key = true
    · simp [hk]
    · have hk2 : ¬(List.getLast? p.key = some '/') := by
        simpa [endsSlash] using hk
      simp [endsSlash, hk2]
  cases hput : client.put_object p.bucket (if endsSlash p.key then p.key else p.key ++ ['/']) with
  | ok w =>
      refine ⟨?_, ?_, ?_, ?_, ?_, ?_⟩ <;>
        simp [S3Path.mkdir, h, hput, hmarker, Except.map]
  | error e =>
      refine ⟨?_, ?_, ?_, ?_, ?_, ?_⟩ <;>
        simp [S3Path.mkdir, h, hput, hmarker, Except.map]

/-- C10 witness: on a client where the node does not resolve as a
directory, `mkdir` with arbitrary `mode`/`parents` values puts the marker
`d/`, matches the run with different argument values, and closes the
writer. -/
theorem c10_mkdir_marker_witness :
    nodeDir.mkdir clC2pages 511 true false = nodeDir.mkdir clC2pages 0 false false ∧
    (nodeDir.mkdir clC2pages 511 true false).putKeyCalled = some (("d/".toList)) ∧
    (nodeDir.mkdir clC2pages 511 true false).bytesWritten = 0 := by
  have h := c10_mkdir_marker clC2pages nodeDir 511 0 true false false (by decide)
  refine ⟨h.1, ?_, h.2.2.2.2.1⟩
  · have h2 := h.2.1
    simpa using h2

/-- C7 counterexample: with bucket `s3://mybucket` and the two-segment key
`a/b.txt`, `join` produces the absolute string `s3://mybucket/a/b.txt`,
but `split` returns `("s3://mybucket/a", "b.txt")` — the drive plus parent
and the last segment — not the original `(bucket, key)` pair. -/
theorem c7_split_join_counterexample :
    S3Parser.isabs (S3Parser.join ("s3://mybucket".toList) [("a/b.txt".toList)]) = true ∧
    S3Parser.split (S3Parser.join ("s3://mybucket".toList) [("a/b.txt".toList)]) =
      (("s3://mybucket/a".toList), ("b.txt".toList)) ∧
    S3Parser.split (S3Parser.join ("s3://mybucket".toList) [("a/b.txt".toList)]) ≠
      (("s3://mybucket".toList), ("a/b.txt".toList)) := by
  decide

/-- C7 (amended): `split(join(bucket, key)) = (bucket, key)` holds when the
bucket component has the trailing-separator form `s3://name/` and the key
is a single separator-free segment (free of URL metacharacters); `split`
always returns the drive-and-parent component followed by the last key
segment, so multi-segment keys do not round-trip. -/
theorem c7_split_join_roundtrip (b k : Str) (hb : b ≠ [])
    (hbg : ∀ c ∈ b, goodChar c) (hkg : ∀ c ∈ k, goodChar c) :
    S3Parser.isabs (S3Parser.join (s3Pre ++ b ++ ['/']) [k]) = true ∧
    S3Parser.split (S3Parser.join (s3Pre ++ b ++ ['/']) [k]) = (s3Pre ++ b ++ ['/'], k) := by
  have hkhd : ∀ c ∈ k.head?.toList, c ≠ '/' := by
    intro c hc
    have hmem : c ∈ k := by
      cases k with
      | nil => simp at hc
      | cons c0 t =>
          simp at hc
          subst hc
          exact List.mem_cons_self _ _
    exact (hkg c hmem).2
  have hkpath : ∀ c ∈ k, pathChar c := fun c hc => (hkg c hc).1
  have hkslash : ∀ c ∈ k, (c == '/') = false := by
    intro c hc
    simp [(hkg c hc).2]
  have hjoin : S3Parser.join (s3Pre ++ b ++ ['/']) [k] = s3Pre ++ (b ++ '/' :: k) := by
    unfold S3Parser.join
    rw [posixJoin_trailing (s3Pre ++ b) k hkhd]
    simp
  rw [hjoin]
  refine ⟨isabs_s3 b k, ?_⟩
  rw [split_s3 hb hbg hkpath hkhd, rpartitionSlash_no_slash hkslash]

/-- C7 witness: the round-trip at bucket `s3://mybucket/` and key `b.txt`. -/
theorem c7_split_join_roundtrip_witness :
    S3Parser.split (S3Parser.join (s3Pre ++ ("mybucket".toList) ++ ['/']) [("b.txt".toList)]) =
      (s3Pre ++ ("mybucket".toList) ++ ['/'], ("b.txt".toList)) :=
  (c7_split_join_roundtrip ("mybucket".toList) ("b.txt".toList)
    (by decide) (by decide) (by decide)).2

theorem stripLeadingSlash_of_head_ne {c : Char} {t : Str} (h : c ≠ '/') :
    stripLeadingSlash (c :: t) = c :: t := by
  unfold stripLeadingSlash
  split
  · next t2 heq =>
      exact absurd heq (by simp [h])
  · rfl

/-- C6 counterexample: `with_name("x/y")` on `s3://bucket/a/b` does NOT
fail, although `x/y` embeds a separator: the check inspects only the
drive component of `split(name)`, which is empty for any name without a
`://` marker, so the node `s3://bucket/a/x/y` is returned instead of
raising a validation error. -/
theorem c6_with_name_separator_counterexample :
    (("x/y".toList) : Str).contains '/' = true ∧
    nodeAB.with_name ("x/y".toList) =
      .ok ⟨("s3://bucket/a/x/y".toList), ("us-east-1".toList), cfg400, 0⟩ := by
  decide

/-- C6 (amended): `with_name(new_name)` raises the validation error only
when `split(new_name)` carries a non-empty drive (a `://`-style bucket
marker): any name free of colons and not beginning with `//` is accepted,
separators included.  For a separator-free `new_name` on a well-formed
absolute node, the result replaces exactly the final path segment,
preserving region, configuration and client handle. -/
theorem c6_with_name_behavior (p : S3Path) (nm b d f n r : Str)
    (cfg : S3ClientConfig) (cid : Nat)
    (hnm1 : ∀ c ∈ nm, (c == ':') = false)
    (hnm2 : ¬ ∃ t, nm = '/' :: '/' :: t)
    (hb : b ≠ []) (hbg : ∀ c ∈ b, goodChar c)
    (hd : d ≠ []) (hdg : ∀ c ∈ d, goodChar c)
    (hfg : ∀ c ∈ f, goodChar c)
    (hng : ∀ c ∈ n, goodChar c) :
    (∃ q, p.with_name nm = .ok q) ∧
    (S3Path.mk (s3Pre ++ (b ++ '/' :: (d ++ '/' :: f))) r cfg cid).with_name n =
      .ok (S3Path.mk (s3Pre ++ (b ++ '/' :: (d ++ '/' :: n))) r cfg cid) := by
  constructor
  · refine ⟨p.with_segments [(S3Parser.split p.raw_path).1, nm], ?_⟩
    simp [S3Path.with_name, split_relative_bucket_empty hnm1 hnm2]
  · have hrest_path : ∀ c ∈ d ++ '/' :: f, pathChar c := by
      intro c hc
      rcases List.mem_append.mp hc with h | h
      · exact (hdg c h).1
      · rcases List.mem_cons.mp h with h | h
        · subst h; decide
        · exact (hfg c h).1
    have hrest_hd : ∀ c ∈ (d ++ '/' :: f).head?.toList, c ≠ '/' := by
      intro c hc
      cases d with
      | nil => exact absurd rfl hd
      | cons d0 dt =>
          simp at hc
          rw [hc]
          exact (hdg d0 (List.mem_cons_self _ _)).2
    have hfslash : ∀ c ∈ f, (c == '/') = false := by
      intro c hc
      simp [(hfg c hc).2]
    have hsplitraw : S3Parser.split (s3Pre ++ (b ++ '/' :: (d ++ '/' :: f))) =
        (s3Pre ++ b ++ '/' :: d, f) := by
      rw [split_s3 hb hbg hrest_path hrest_hd, rpartitionSlash_last hfslash]
    have hsplitn : (S3Parser.split n).1 = [] := by
      apply split_relative_bucket_empty
      · intro c hc
        simp [(hng c hc).1.1]
      · rintro ⟨t, ht⟩
        have hmem : '/' ∈ n := by rw [ht]; simp
        exact (hng '/' hmem).2 rfl
    have habs : S3Parser.isabs (s3Pre ++ (b ++ '/' :: (d ++ '/' :: f))) = true :=
      isabs_s3 b (d ++ '/' :: f)
    have hdrv : S3Parser.splitdrive (s3Pre ++ (b ++ '/' :: (d ++ '/' :: f))) =
        (s3Pre ++ b, d ++ '/' :: f) :=
      splitdrive_s3 hbg hrest_path hrest_hd
    have hanchor : (S3Path.mk (s3Pre ++ (b ++ '/' :: (d ++ '/' :: f))) r cfg cid).anchor =
        s3Pre ++ b ++ ['/'] := by
      simp [S3Path.anchor, S3Path.is_absolute, S3Path.drive, S3Path.str, habs, hdrv]
    have hdne : ∀ c ∈ (d ++ '/' :: n), pathChar c := by
      intro c hc
      rcases List.mem_append.mp hc with h | h
      · exact (hdg c h).1
      · rcases List.mem_cons.mp h with h | h
        · subst h; decide
        · exact (hng c h).1
    have hstrip : stripLeadingSlash ((s3Pre ++ b ++ '/' :: d) ++ '/' :: n) =
        (s3Pre ++ b ++ '/' :: d) ++ '/' :: n := by
      have hx : (s3Pre ++ b ++ '/' :: d) ++ '/' :: n =
          's' :: ('3' :: ':' :: '/' :: '/' :: (b ++ '/' :: d ++ '/' :: n)) := by
        simp [s3Pre]
      rw [hx, stripLeadingSlash_of_head_ne (by decide)]
    have hpref : (s3Pre ++ b ++ ['/']).isPrefixOf ((s3Pre ++ b ++ '/' :: d) ++ '/' :: n) =
        true := by
      have hassoc : (s3Pre ++ b ++ '/' :: d) ++ '/' :: n =
          (s3Pre ++ b ++ ['/']) ++ (d ++ '/' :: n) := by
        simp
      rw [hassoc]
      exact isPrefixOf_append_self _ _
    simp only [S3Path.with_name, S3Path.str]
    rw [hsplitn, hsplitraw]
    simp only [List.isEmpty_nil, Bool.not_true, Bool.false_eq_true, if_false,
      Bool.not_false, if_true]
    simp only [S3Path.with_segments, intercalate_pair]
    rw [show (s3Pre ++ b ++ '/' :: d) ++ ['/'] ++ n = (s3Pre ++ b ++ '/' :: d) ++ '/' :: n
      from by simp, hstrip, hanchor, hpref]
    simp

/-- C6 witness: the amended behaviour at concrete inputs — the slashed
name `x/y` is accepted on `s3://bucket/a/b`, and the separator-free name
`c.txt` replaces the final segment of `s3://bucket/dir/old`. -/
theorem c6_with_name_behavior_witness :
    (∃ q, nodeAB.with_name ("x/y".toList) = .ok q) ∧
    (S3Path.mk (s3Pre ++ (("bucket".toList) ++ '/' :: (("dir".toList) ++ '/' :: ("old".toList))))
        ("us-east-1".toList) cfg400 0).with_name ("c.txt".toList) =
      .ok (S3Path.mk
        (s3Pre ++ (("bucket".toList) ++ '/' :: (("dir".toList) ++ '/' :: ("c.txt".toList))))
        ("us-east-1".toList) cfg400 0) := by
  have h := c6_with_name_behavior nodeAB ("x/y".toList) ("bucket".toList) ("dir".toList)
    ("old".toList) ("c.txt".toList) ("us-east-1".toList) cfg400 0
    (by decide) (by rintro ⟨t, ht⟩; simp at ht) (by decide) (by decide)
    (by decide) (by decide) (by decide) (by decide)
  exact ⟨h.1, h.2⟩
